import Mathlib

/-!
A shallow embedding of `banking_core.py`: accounts broadcasting balance
changes to observers, pluggable interest strategies, reversible
transaction commands and the transaction manager (undo stack).

Monetary amounts are modelled as exact rationals: the source uses Python
numbers and the specification treats amount arithmetic as exact for the
amounts involved.  Observers are identified by opaque `Nat` ids (Python
membership on the observer list is object identity).  Console printing is
not modelled; observer deliveries (`observer.update(message)` calls) are
returned explicitly as a list of (observer id, message) pairs.
-/

namespace BankingCore

/-- A notification message broadcast to observers on a successful balance
change: the source sends `"Deposit of $A made."` or
`"Withdrawal of $A made."`, identified here by direction and amount. -/
inductive Msg where
  | depositMade (amount : ℚ)
  | withdrawalMade (amount : ℚ)
  deriving DecidableEq

/-- The state of a `BaseAccount`: account number, balance and the ordered
list of attached observer ids (`self._observers`). -/
structure Account where
  accountNumber : String
  balance : ℚ
  observers : List Nat
  deriving DecidableEq

/-- `BaseAccount._notify_observers`: one `update` call per attached
observer, in list order; returns the deliveries made. -/
def notifyObservers (a : Account) (m : Msg) : List (Nat × Msg) :=
  a.observers.map (fun o => (o, m))

/-- `BaseAccount.deposit`: if `amount > 0`, add it to the balance, notify
all observers and return `True`; otherwise do nothing and return `False`.
Result: (updated account, deliveries made, success flag). -/
def deposit (a : Account) (amount : ℚ) : Account × List (Nat × Msg) × Bool :=
  if 0 < amount then
    let a' : Account := { a with balance := a.balance + amount }
    (a', notifyObservers a' (Msg.depositMade amount), true)
  else
    (a, [], false)

/-- `BaseAccount.withdraw`: if `amount > 0 and self._balance >= amount`,
subtract it, notify all observers and return `True`; otherwise print a
diagnostic, do nothing and return `False`. -/
def withdraw (a : Account) (amount : ℚ) : Account × List (Nat × Msg) × Bool :=
  if 0 < amount ∧ amount ≤ a.balance then
    let a' : Account := { a with balance := a.balance - amount }
    (a', notifyObservers a' (Msg.withdrawalMade amount), true)
  else
    (a, [], false)

/-- `BaseAccount.attach`: append the observer unless already present. -/
def attach (a : Account) (o : Nat) : Account :=
  if o ∈ a.observers then a else { a with observers := a.observers ++ [o] }

/-- `BaseAccount.detach`: `list.remove` drops the first occurrence; a
`ValueError` on a non-member is swallowed (no-op). -/
def detach (a : Account) (o : Nat) : Account :=
  { a with observers := a.observers.erase o }

/-- `SavingsInterest.calculate`: interest = balance * 0.03, applied via
`account.deposit(interest)` (whose success flag is ignored). -/
def SavingsInterest.calculate (a : Account) : Account × List (Nat × Msg) :=
  let rate : ℚ := 3 / 100
  let interest := a.balance * rate
  let r := deposit a interest
  (r.1, r.2.1)

/-- `CurrentInterest.calculate`: if balance > 500, interest =
balance * 0.005 applied via `account.deposit(interest)`; else nothing. -/
def CurrentInterest.calculate (a : Account) : Account × List (Nat × Msg) :=
  let rate : ℚ := 5 / 1000
  if 500 < a.balance then
    let interest := a.balance * rate
    let r := deposit a interest
    (r.1, r.2.1)
  else
    (a, [])

/-- The two concrete `InterestStrategy` subclasses. -/
inductive InterestStrategy where
  | savingsInterest
  | currentInterest
  deriving DecidableEq

/-- Dynamic dispatch of `strategy.calculate(account)`. -/
def InterestStrategy.calculate : InterestStrategy → Account → Account × List (Nat × Msg)
  | .savingsInterest, a => SavingsInterest.calculate a
  | .currentInterest, a => CurrentInterest.calculate a

/-- Which concrete account class: `SavingsAccount` or `CurrentAccount`. -/
inductive AccountKind where
  | savings
  | current
  deriving DecidableEq

/-- A `SavingsAccount` or `CurrentAccount`: a base account composed with
an optional interest strategy (`interest_strategy=None` is allowed). -/
structure StratAccount where
  kind : AccountKind
  base : Account
  interest_strategy : Option InterestStrategy
  deriving DecidableEq

/-- `calculate_interest` of `SavingsAccount` and `CurrentAccount` (the two
bodies are identical): if a strategy is set, delegate to it; otherwise do
nothing. -/
def calculate_interest (sa : StratAccount) : StratAccount × List (Nat × Msg) :=
  match sa.interest_strategy with
  | none => (sa, [])
  | some s =>
      let r := s.calculate sa.base
      ({ sa with base := r.1 }, r.2)

/-- The world the commands act on: a store of accounts indexed by id plus
the global ordered log of observer deliveries performed so far. -/
structure World where
  accounts : Nat → Account
  log : List (Nat × Msg)

/-- The two concrete `Command` subclasses, each binding a target account
and an amount fixed at construction. -/
inductive Command where
  | depositCmd (accountId : Nat) (amount : ℚ)
  | withdrawCmd (accountId : Nat) (amount : ℚ)
  deriving DecidableEq

/-- `Command.execute`: `DepositCommand` calls `account.deposit(amount)`,
`WithdrawCommand` calls `account.withdraw(amount)`; returns the underlying
call's success flag. -/
def Command.execute : Command → World → World × Bool
  | .depositCmd i amt, w =>
      let r := deposit (w.accounts i) amt
      (⟨fun j => if j = i then r.1 else w.accounts j, w.log ++ r.2.1⟩, r.2.2)
  | .withdrawCmd i amt, w =>
      let r := withdraw (w.accounts i) amt
      (⟨fun j => if j = i then r.1 else w.accounts j, w.log ++ r.2.1⟩, r.2.2)

/-- `Command.undo`: the reverse of a deposit is `account.withdraw(amount)`
and the reverse of a withdrawal is `account.deposit(amount)`; returns the
underlying call's success flag. -/
def Command.undo : Command → World → World × Bool
  | .depositCmd i amt, w =>
      let r := withdraw (w.accounts i) amt
      (⟨fun j => if j = i then r.1 else w.accounts j, w.log ++ r.2.1⟩, r.2.2)
  | .withdrawCmd i amt, w =>
      let r := deposit (w.accounts i) amt
      (⟨fun j => if j = i then r.1 else w.accounts j, w.log ++ r.2.1⟩, r.2.2)

/-- `TransactionManager`: keeps the history of successfully executed
commands, most recent last. -/
structure TransactionManager where
  history : List Command
  deriving DecidableEq

/-- `TransactionManager.execute_transaction`: run `command.execute()`; on
success append the command to the history and return `True`, otherwise
leave the history unchanged and return `False`. -/
def execute_transaction (m : TransactionManager) (w : World) (c : Command) :
    TransactionManager × World × Bool :=
  let r := c.execute w
  if r.2 then
    ({ history := m.history ++ [c] }, r.1, true)
  else
    (m, r.1, false)

/-- `TransactionManager.undo_last_transaction`: on empty history return
`False`; otherwise pop the most recent command, call its `undo()` and
return `True` unconditionally — the source discards the result of
`last_command.undo()`. -/
def undo_last_transaction (m : TransactionManager) (w : World) :
    TransactionManager × World × Bool :=
  match m.history.getLast? with
  | none => (m, w, false)
  | some c =>
      let r := c.undo w
      ({ history := m.history.dropLast }, r.1, true)

/-- A sample account with the given balance and no observers. -/
def acct (b : ℚ) : Account := ⟨"A1", b, []⟩

/-- A sample world: every account id maps to `acct b`, empty log. -/
def world1 (b : ℚ) : World := ⟨fun _ => acct b, []⟩

/-- C4: `withdraw` succeeds exactly when `0 < A` and `A ≤ balance`; on
success the balance becomes exactly `B - A`; on failure the account is
unchanged, no observer is notified, and `false` is returned (the function
is total: no exception). -/
theorem withdraw_spec (a : Account) (A : ℚ) :
    ((withdraw a A).2.2 = true ↔ (0 < A ∧ A ≤ a.balance))
    ∧ ((withdraw a A).2.2 = true → (withdraw a A).1.balance = a.balance - A)
    ∧ ((withdraw a A).2.2 = false → withdraw a A = (a, [], false)) := by
  unfold withdraw
  split <;> simp_all

/-- Witness for `withdraw_spec` at balance 100, amount 30. -/
theorem withdraw_spec_witness :
    (withdraw (acct 100) 30).2.2 = true
    ∧ (withdraw (acct 100) 30).1.balance = (acct 100).balance - 30 := by
  have ht : (withdraw (acct 100) 30).2.2 = true := by
    simp [withdraw, acct]; norm_num
  exact ⟨ht, (withdraw_spec (acct 100) 30).2.1 ht⟩

/-- C5: `deposit` succeeds exactly when `0 < A`; on success the balance
becomes exactly `B + A`; with `A ≤ 0` it returns `false`, mutates nothing
and notifies nobody. -/
theorem deposit_spec (a : Account) (A : ℚ) :
    ((deposit a A).2.2 = true ↔ 0 < A)
    ∧ (0 < A → (deposit a A).2.2 = true ∧ (deposit a A).1.balance = a.balance + A)
    ∧ ((deposit a A).2.2 = false → deposit a A = (a, [], false)) := by
  unfold deposit
  split <;> simp_all

/-- Witness for `deposit_spec` at balance 100, amount 30. -/
theorem deposit_spec_witness :
    (0 : ℚ) < 30
    ∧ ((deposit (acct 100) 30).2.2 = true
        ∧ (deposit (acct 100) 30).1.balance = (acct 100).balance + 30) := by
  have h : (0 : ℚ) < 30 := by norm_num
  exact ⟨h, (deposit_spec (acct 100) 30).2.1 h⟩

/-- C6: `undo_last_transaction` on an empty history returns `false` and
leaves the manager, every account and the delivery log unchanged (and the
function is total: no exception). -/
theorem undo_empty_history (m : TransactionManager) (w : World)
    (h : m.history = []) :
    undo_last_transaction m w = (m, w, false) := by
  simp [undo_last_transaction, h]

/-- Witness for `undo_empty_history` on a fresh manager. -/
theorem undo_empty_history_witness :
    (⟨[]⟩ : TransactionManager).history = []
    ∧ undo_last_transaction ⟨[]⟩ (world1 5) = (⟨[]⟩, world1 5, false) :=
  ⟨rfl, undo_empty_history ⟨[]⟩ (world1 5) rfl⟩

/-- C9: attaching an already-attached observer leaves the observer list
unchanged (hence attach-twice behaves as attach-once), and detaching a
non-member is a no-op that raises no error. -/
theorem attach_detach_idempotent (a : Account) (o : Nat) :
    (o ∈ a.observers → attach a o = a)
    ∧ (o ∉ a.observers → detach a o = a)
    ∧ attach (attach a o) o = attach a o := by
  refine ⟨fun h => by simp [attach, h], fun h => ?_, ?_⟩
  · simp [detach, List.erase_of_not_mem h]
  · by_cases h : o ∈ a.observers
    · simp [attach, h]
    · simp [attach, h]

/-- Witness for `attach_detach_idempotent`: re-attaching observer 1. -/
theorem attach_detach_idempotent_witness :
    1 ∈ (⟨"A1", 0, [1]⟩ : Account).observers
    ∧ attach ⟨"A1", 0, [1]⟩ 1 = ⟨"A1", 0, [1]⟩ :=
  ⟨by simp, (attach_detach_idempotent ⟨"A1", 0, [1]⟩ 1).1 (by simp)⟩

/-- C10: with `interest_strategy = None`, `calculate_interest` of a
`SavingsAccount` or `CurrentAccount` returns normally, leaves the account
(in particular its balance) unchanged and makes no deliveries. -/
theorem calculate_interest_none (sa : StratAccount)
    (h : sa.interest_strategy = none) :
    calculate_interest sa = (sa, []) := by
  simp [calculate_interest, h]

/-- Witness for `calculate_interest_none` on a strategy-less savings
account. -/
theorem calculate_interest_none_witness :
    (⟨AccountKind.savings, acct 100, none⟩ : StratAccount).interest_strategy = none
    ∧ calculate_interest ⟨AccountKind.savings, acct 100, none⟩
        = (⟨AccountKind.savings, acct 100, none⟩, []) :=
  ⟨rfl, calculate_interest_none ⟨AccountKind.savings, acct 100, none⟩ rfl⟩

/-- C1 counterexample: starting from balance 0, a deposit of 100 is
submitted through the manager (history becomes `[DepositCommand 100]`),
then 60 is withdrawn directly from the account.  `undo_last_transaction`
then pops the deposit command, whose `undo()` (a withdrawal of 100 from
balance 40) returns `False` — yet `undo_last_transaction` returns `True`:
it does not return the boolean result of the `undo()` call. -/
theorem undoLast_discards_undo_result :
    (execute_transaction ⟨[]⟩ (world1 0) (Command.depositCmd 0 100)).1.history
        = [Command.depositCmd 0 100]
    ∧ ((Command.depositCmd 0 100).undo
        ((Command.withdrawCmd 0 60).execute
          (execute_transaction ⟨[]⟩ (world1 0) (Command.depositCmd 0 100)).2.1).1).2 = false
    ∧ (undo_last_transaction
        (execute_transaction ⟨[]⟩ (world1 0) (Command.depositCmd 0 100)).1
        ((Command.withdrawCmd 0 60).execute
          (execute_transaction ⟨[]⟩ (world1 0) (Command.depositCmd 0 100)).2.1).1).2.2 = true := by
  refine ⟨?_, ?_, ?_⟩
  · simp [execute_transaction, Command.execute, deposit, world1, acct, notifyObservers]
  · simp [execute_transaction, Command.execute, Command.undo, deposit, withdraw,
      world1, acct, notifyObservers]
    norm_num
  · simp [undo_last_transaction, execute_transaction, Command.execute, Command.undo,
      deposit, withdraw, world1, acct, notifyObservers]

/-- C1 amended: on a non-empty history, `undo_last_transaction` pops the
most recent command, applies that command's `undo()` to the world, and
returns `true` unconditionally — the boolean result of `undo()` is
discarded rather than returned. -/
theorem undo_last_spec (m : TransactionManager) (w : World)
    (h : m.history ≠ []) :
    undo_last_transaction m w
      = (⟨m.history.dropLast⟩, ((m.history.getLast h).undo w).1, true) := by
  simp [undo_last_transaction, List.getLast?_eq_getLast m.history h]

/-- Witness for `undo_last_spec` on a one-command history. -/
theorem undo_last_spec_witness :
    (⟨[Command.depositCmd 0 5]⟩ : TransactionManager).history ≠ []
    ∧ undo_last_transaction ⟨[Command.depositCmd 0 5]⟩ (world1 0)
        = (⟨[]⟩, ((Command.depositCmd 0 5).undo (world1 0)).1, true) :=
  ⟨by simp, undo_last_spec ⟨[Command.depositCmd 0 5]⟩ (world1 0) (by simp)⟩

/-- C2: `execute_transaction` appends the command to the history exactly
when `command.execute()` succeeds (history unchanged on failure) and
returns the execute flag; on a non-empty history `undo_last_transaction`
removes exactly one entry — the most recently appended one — applies that
command's `undo()`, and does not re-push the popped command (the new
history is exactly the old one without its last element). -/
theorem ledger_push_pop_discipline :
    (∀ (m : TransactionManager) (w : World) (c : Command),
        ((execute_transaction m w c).1.history
            = if (c.execute w).2 = true then m.history ++ [c] else m.history)
        ∧ (execute_transaction m w c).2.2 = (c.execute w).2)
    ∧ (∀ (m : TransactionManager) (w : World) (h : m.history ≠ []),
        (undo_last_transaction m w).1.history = m.history.dropLast
        ∧ (undo_last_transaction m w).1.history.length + 1 = m.history.length
        ∧ (undo_last_transaction m w).2.1 = ((m.history.getLast h).undo w).1) := by
  constructor
  · intro m w c
    unfold execute_transaction
    cases hc : (c.execute w).2 <;> simp [hc]
  · intro m w h
    have hlen : 0 < m.history.length := List.length_pos.mpr h
    simp [undo_last_transaction, List.getLast?_eq_getLast m.history h,
      List.length_dropLast]
    omega

/-- Witness for `ledger_push_pop_discipline` on a one-command history. -/
theorem ledger_push_pop_discipline_witness :
    (⟨[Command.depositCmd 0 7]⟩ : TransactionManager).history ≠ []
    ∧ (undo_last_transaction ⟨[Command.depositCmd 0 7]⟩ (world1 3)).1.history
        = ([Command.depositCmd 0 7] : List Command).dropLast :=
  ⟨by simp,
    (ledger_push_pop_discipline.2 ⟨[Command.depositCmd 0 7]⟩ (world1 3) (by simp)).1⟩

/-- C3 counterexample: on an account with (constructible) negative balance
-10, a `DepositCommand` for 5 executes successfully (balance -5), but its
immediate `undo()` — a withdrawal of 5 from balance -5 — fails and leaves
the balance at -5, not the original -10. -/
theorem deposit_undo_not_inverse_at_negative_balance :
    ((Command.depositCmd 0 5).execute (world1 (-10))).2 = true
    ∧ ((Command.depositCmd 0 5).undo
        ((Command.depositCmd 0 5).execute (world1 (-10))).1).2 = false
    ∧ (((Command.depositCmd 0 5).undo
        ((Command.depositCmd 0 5).execute (world1 (-10))).1).1.accounts 0).balance
        ≠ ((world1 (-10)).accounts 0).balance := by
  refine ⟨?_, ?_, ?_⟩
  · simp [Command.execute, deposit, world1, acct]
  · simp [Command.execute, Command.undo, deposit, withdraw, world1, acct,
      notifyObservers]
    norm_num
  · simp [Command.execute, Command.undo, deposit, withdraw, world1, acct,
      notifyObservers]
    norm_num

/-- C3 amended: provided the account's balance is non-negative, a
successfully executed `DepositCommand` is exactly reversed by an immediate
`undo()` (which succeeds and restores the balance); a successfully
executed `WithdrawCommand` is exactly reversed by an immediate `undo()`
unconditionally. -/
theorem command_undo_inverse (w : World) (i : Nat) (A : ℚ) :
    (0 ≤ (w.accounts i).balance →
      ((Command.depositCmd i A).execute w).2 = true →
        ((Command.depositCmd i A).undo ((Command.depositCmd i A).execute w).1).2 = true
        ∧ (((Command.depositCmd i A).undo
            ((Command.depositCmd i A).execute w).1).1.accounts i).balance
            = (w.accounts i).balance)
    ∧ (((Command.withdrawCmd i A).execute w).2 = true →
        ((Command.withdrawCmd i A).undo ((Command.withdrawCmd i A).execute w).1).2 = true
        ∧ (((Command.withdrawCmd i A).undo
            ((Command.withdrawCmd i A).execute w).1).1.accounts i).balance
            = (w.accounts i).balance) := by
  constructor
  · intro hb hex
    have hA : 0 < A := by
      by_contra hA
      simp [Command.execute, deposit, hA] at hex
    have hle : A ≤ (w.accounts i).balance + A := by linarith
    simp [Command.execute, Command.undo, deposit, withdraw, hA, hle,
      notifyObservers]
  · intro hex
    have hA : 0 < A ∧ A ≤ (w.accounts i).balance := by
      by_contra hA
      simp [Command.execute, withdraw, hA] at hex
    simp [Command.execute, Command.undo, deposit, withdraw, hA.1, hA.2,
      notifyObservers]

/-- Witness for `command_undo_inverse`: deposit 4 on balance 10, undone. -/
theorem command_undo_inverse_witness :
    (0 ≤ ((world1 10).accounts 0).balance)
    ∧ ((Command.depositCmd 0 4).execute (world1 10)).2 = true
    ∧ (((Command.depositCmd 0 4).undo
        ((Command.depositCmd 0 4).execute (world1 10)).1).1.accounts 0).balance
        = ((world1 10).accounts 0).balance := by
  have hb : (0 : ℚ) ≤ ((world1 10).accounts 0).balance := by
    simp [world1, acct]
  have hex : ((Command.depositCmd 0 4).execute (world1 10)).2 = true := by
    simp [Command.execute, deposit, world1, acct]
  exact ⟨hb, hex, ((command_undo_inverse (world1 10) 0 4).1 hb hex).2⟩

/-- C7 counterexample: on an account with (constructible) negative balance
-100, `SavingsInterest.calculate` does not credit balance × 0.03 (which
would give -103): the deposit of the negative interest is rejected and the
account is left unchanged at -100. -/
theorem savings_interest_negative_balance :
    (SavingsInterest.calculate (acct (-100))).1.balance
        ≠ (acct (-100)).balance + (acct (-100)).balance * (3 / 100)
    ∧ (SavingsInterest.calculate (acct (-100))).1 = acct (-100) := by
  constructor
  · simp [SavingsInterest.calculate, acct, deposit]
    norm_num
  · simp [SavingsInterest.calculate, acct, deposit]
    norm_num

/-- C7 amended: for a strictly positive balance, the savings policy
credits exactly balance × 0.03 (computed from the pre-credit balance); for
balance ≤ 0 the deposit of the non-positive interest is rejected and
nothing changes.  The checking policy credits exactly balance × 0.005 when
balance > 500 (again computed from the pre-credit balance) and performs no
mutation when balance ≤ 500, in particular at exactly 500. -/
theorem interest_spec (a : Account) :
    (0 < a.balance →
      (SavingsInterest.calculate a).1.balance = a.balance + a.balance * (3 / 100))
    ∧ (a.balance ≤ 0 → SavingsInterest.calculate a = (a, []))
    ∧ (500 < a.balance →
      (CurrentInterest.calculate a).1.balance = a.balance + a.balance * (5 / 1000))
    ∧ (a.balance ≤ 500 → CurrentInterest.calculate a = (a, [])) := by
  refine ⟨fun hb => ?_, fun hb => ?_, fun hb => ?_, fun hb => ?_⟩
  · have hi : 0 < a.balance * ((3 : ℚ) / 100) := by positivity
    simp [SavingsInterest.calculate, deposit, hi]
  · have hi : ¬ (0 : ℚ) < a.balance * (3 / 100) := by
      simp only [not_lt]
      have : (0 : ℚ) ≤ 3 / 100 := by norm_num
      exact mul_nonpos_of_nonpos_of_nonneg hb this
    simp [SavingsInterest.calculate, deposit, hi]
  · have hp : (0 : ℚ) < a.balance := lt_trans (by norm_num) hb
    have hi : 0 < a.balance * ((5 : ℚ) / 1000) := by positivity
    simp [CurrentInterest.calculate, deposit, hb, hi]
  · have hb2 : ¬ (500 : ℚ) < a.balance := not_lt.mpr hb
    simp [CurrentInterest.calculate, hb2]

/-- Witness for `interest_spec`: savings interest on balance 600 yields
618. -/
theorem interest_spec_witness :
    (0 < (acct 600).balance)
    ∧ (SavingsInterest.calculate (acct 600)).1.balance
        = (acct 600).balance + (acct 600).balance * (3 / 100) := by
  have hb : (0 : ℚ) < (acct 600).balance := by simp [acct]
  exact ⟨hb, (interest_spec (acct 600)).1 hb⟩

/-- C8: with a duplicate-free observer list (which `attach` maintains),
every successful `deposit` or `withdraw` delivers exactly one `update`
call to each attached observer — the recipients of the deliveries are
exactly the observer list — and every failed `deposit` or `withdraw`
delivers none. -/
theorem deposit_pos_eq (a : Account) (A : ℚ) (hA : 0 < A) :
    deposit a A = ({ a with balance := a.balance + A },
      a.observers.map (fun o => (o, Msg.depositMade A)), true) := by
  simp [deposit, hA, notifyObservers]

theorem deposit_neg_eq (a : Account) (A : ℚ) (hA : ¬ 0 < A) :
    deposit a A = (a, [], false) := by
  simp [deposit, hA]

theorem withdraw_pos_eq (a : Account) (A : ℚ)
    (hA : 0 < A ∧ A ≤ a.balance) :
    withdraw a A = ({ a with balance := a.balance - A },
      a.observers.map (fun o => (o, Msg.withdrawalMade A)), true) := by
  simp [withdraw, hA, notifyObservers]

theorem withdraw_neg_eq (a : Account) (A : ℚ)
    (hA : ¬ (0 < A ∧ A ≤ a.balance)) :
    withdraw a A = (a, [], false) := by
  simp [withdraw, hA]

theorem map_fst_deliveries (a : Account) (m : Msg) :
    (a.observers.map (fun o => (o, m))).map Prod.fst = a.observers := by
  rw [List.map_map]
  exact List.map_id a.observers

theorem notification_fanout (a : Account) (A : ℚ)
    (h : a.observers.Nodup) :
    ((deposit a A).2.2 = true →
      (deposit a A).2.1.map Prod.fst = a.observers
      ∧ ∀ o ∈ a.observers, ((deposit a A).2.1.map Prod.fst).count o = 1)
    ∧ ((deposit a A).2.2 = false → (deposit a A).2.1 = [])
    ∧ ((withdraw a A).2.2 = true →
      (withdraw a A).2.1.map Prod.fst = a.observers
      ∧ ∀ o ∈ a.observers, ((withdraw a A).2.1.map Prod.fst).count o = 1)
    ∧ ((withdraw a A).2.2 = false → (withdraw a A).2.1 = []) := by
  refine ⟨fun ht => ?_, fun hf => ?_, fun ht => ?_, fun hf => ?_⟩
  · have hA : 0 < A := by
      by_contra hA
      rw [deposit_neg_eq a A hA] at ht
      simp at ht
    rw [deposit_pos_eq a A hA]
    refine ⟨map_fst_deliveries a _, fun o ho => ?_⟩
    rw [map_fst_deliveries a _]
    exact List.count_eq_one_of_mem h ho
  · have hA : ¬ 0 < A := by
      by_contra hA
      rw [deposit_pos_eq a A hA] at hf
      simp at hf
    rw [deposit_neg_eq a A hA]
  · have hA : 0 < A ∧ A ≤ a.balance := by
      by_contra hA
      rw [withdraw_neg_eq a A hA] at ht
      simp at ht
    rw [withdraw_pos_eq a A hA]
    refine ⟨map_fst_deliveries a _, fun o ho => ?_⟩
    rw [map_fst_deliveries a _]
    exact List.count_eq_one_of_mem h ho
  · have hA : ¬ (0 < A ∧ A ≤ a.balance) := by
      by_contra hA
      rw [withdraw_pos_eq a A hA] at hf
      simp at hf
    rw [withdraw_neg_eq a A hA]

/-- Witness for `notification_fanout`: a deposit on an account with
observers 1 and 2 delivers to exactly those observers. -/
theorem notification_fanout_witness :
    (⟨"A1", 50, [1, 2]⟩ : Account).observers.Nodup
    ∧ (deposit ⟨"A1", 50, [1, 2]⟩ 10).2.2 = true
    ∧ (deposit ⟨"A1", 50, [1, 2]⟩ 10).2.1.map Prod.fst
        = (⟨"A1", 50, [1, 2]⟩ : Account).observers := by
  have hn : (⟨"A1", 50, [1, 2]⟩ : Account).observers.Nodup := by simp
  have ht : (deposit ⟨"A1", 50, [1, 2]⟩ 10).2.2 = true := by
    simp [deposit]
  exact ⟨hn, ht, ((notification_fanout ⟨"A1", 50, [1, 2]⟩ 10 hn).1 ht).1⟩

end BankingCore
